import Mathlib

/-!
Verification of the node runtime in src/workspaces/rabbit/src/lib/node.py
(class RabbitNode): the bounded-concurrency interval scheduler
(set_interval), the supervised task loop (async_task), the reactive
key watch (watch_kv), the one-shot timer (set_timeout), the start
sequence (__run) and the shutdown path (__close / run_node).

Time is modelled by rationals; the asyncio event loop is modelled by
explicit step functions over machine states, with an environment oracle
supplying everything the loop observes (task doneness, clock readings,
job outcomes, cancellation delivery points).
-/

namespace Rabbit

/-- Observable actions of the runner loop inside RabbitNode.set_interval:
a spawn records the id of the safe_callback task created at that instant,
a skip records the warning log naming the in-flight count versus the
max_parallel limit. -/
inductive SchedEv where
  | spawn (id : ℕ) (t : ℚ)
  | skipWarn (inflight : ℕ) (limit : ℕ) (t : ℚ)
deriving DecidableEq, Repr

/-- Environment of one runner: doneAt i id says whether the event loop
reports invocation id as done when iteration i prunes its running set;
overhead i is the time the loop body of iteration i consumes before the
sleep is computed; wakeLate i is extra latency after that sleep. -/
structure SchedEnv where
  doneAt : ℕ → ℕ → Bool
  overhead : ℕ → ℚ
  wakeLate : ℕ → ℚ

/-- State of the runner loop of set_interval: the running set (ids of
spawned invocation tasks not yet pruned), next_tick, the loop clock,
the number of invocations spawned so far, the iteration counter, and
the trace of observable actions. -/
structure SchedState where
  running : List ℕ
  nextTick : ℚ
  now : ℚ
  spawned : ℕ
  iter : ℕ
  events : List SchedEv
deriving DecidableEq, Repr

/-- One iteration of the while-True loop of runner() in set_interval:
prune tasks reported done from running; when max_parallel is None or the
pruned running count is below it, create one safe_callback task, else log
the skip warning; advance next_tick by delay; compute
sleep_time = next_tick - loop.time() and sleep it when positive, else
sleep 0. -/
def schedStep (maxParallel : Option ℕ) (delay : ℚ) (env : SchedEnv)
    (s : SchedState) : SchedState :=
  let pruned := s.running.filter fun id => !env.doneAt s.iter id
  let spawnNow : Bool :=
    match maxParallel with
    | none => true
    | some n => pruned.length < n
  let running2 := if spawnNow then s.spawned :: pruned else pruned
  let spawned2 := if spawnNow then s.spawned + 1 else s.spawned
  let events2 :=
    if spawnNow then s.events ++ [SchedEv.spawn s.spawned s.now]
    else s.events ++ [SchedEv.skipWarn pruned.length (maxParallel.getD 0) s.now]
  let nextTick2 := s.nextTick + delay
  let afterBody := s.now + env.overhead s.iter
  let sleepTime := nextTick2 - afterBody
  let now2 := (if 0 < sleepTime then nextTick2 else afterBody) + env.wakeLate s.iter
  { running := running2, nextTick := nextTick2, now := now2,
    spawned := spawned2, iter := s.iter + 1, events := events2 }

/-- Runner state at entry: empty running set, next_tick initialised to
loop.time() read at the start of runner(). -/
def schedInit (start : ℚ) : SchedState :=
  { running := [], nextTick := start, now := start, spawned := 0, iter := 0,
    events := [] }

/-- The runner after k loop iterations. -/
def schedRun (maxParallel : Option ℕ) (delay : ℚ) (env : SchedEnv)
    (start : ℚ) : ℕ → SchedState
  | 0 => schedInit start
  | n + 1 => schedStep maxParallel delay env (schedRun maxParallel delay env start n)

lemma schedRun_iter (mp : Option ℕ) (delay : ℚ) (env : SchedEnv) (start : ℚ)
    (k : ℕ) : (schedRun mp delay env start k).iter = k := by
  induction k with
  | zero => rfl
  | succ n ih => simp [schedRun, schedStep, ih]

lemma schedRun_nextTick (mp : Option ℕ) (delay : ℚ) (env : SchedEnv)
    (start : ℚ) (k : ℕ) :
    (schedRun mp delay env start k).nextTick = start + k * delay := by
  induction k with
  | zero => simp [schedRun, schedInit]
  | succ n ih =>
    simp only [schedRun, schedStep]
    rw [ih]
    push_cast
    ring

/-- Claim C6: for every scheduler configuration, with any max_parallel
setting and any environment (so independently of how long invocations take
to start, of observed doneness, and of any skipped ticks), the deadline of
tick k is exactly start_time + k times the period, and successive tick
deadlines are exactly one period apart, with no cumulative drift. -/
theorem scheduler_deadlines_fixed_cadence (mp : Option ℕ) (delay start : ℚ)
    (env : SchedEnv) (k : ℕ) :
    (schedRun mp delay env start k).nextTick = start + k * delay ∧
    (schedRun mp delay env start (k + 1)).nextTick
      - (schedRun mp delay env start k).nextTick = delay := by
  refine ⟨schedRun_nextTick mp delay env start k, ?_⟩
  rw [schedRun_nextTick, schedRun_nextTick]
  push_cast
  ring

/-- Environment in which no invocation ever completes and the loop body
takes no time. -/
def schedEnvZero : SchedEnv :=
  { doneAt := fun _ _ => false, overhead := fun _ => 0, wakeLate := fun _ => 0 }

/-- Claim C5 is false on the code: with period 5 and registration (runner
start) at time 0, the very first loop iteration spawns invocation 0 at
time 0, i.e. at registration time itself, not at registration time plus
the period. -/
theorem first_tick_at_registration_time :
    (schedRun none 5 schedEnvZero 0 1).events = [SchedEv.spawn 0 0] ∧
    (0 : ℚ) ≠ 0 + 5 := by
  constructor
  · rfl
  · norm_num

/-- Claim C5 (amended): provided max_parallel is not set to zero, the
scheduler fires its first invocation immediately at registration time
(the first pass of the runner loop runs before any sleep), and the
deadline of tick k is registration time plus k times the period. -/
theorem set_interval_initial_tick (mp : Option ℕ) (delay start : ℚ)
    (env : SchedEnv) (h : mp.getD 1 ≠ 0) :
    (schedRun mp delay env start 1).events = [SchedEv.spawn 0 start] ∧
    ∀ k, (schedRun mp delay env start k).nextTick = start + k * delay := by
  refine ⟨?_, fun k => schedRun_nextTick mp delay env start k⟩
  cases mp with
  | none => rfl
  | some n =>
    simp only [Option.getD] at h
    simp [schedRun, schedStep, schedInit, Nat.pos_of_ne_zero h]

/-- Witness for C5 (amended) at max_parallel = 3, period 7, start 2. -/
theorem set_interval_initial_tick_wit :
    (schedRun (some 3) 7 schedEnvZero 2 1).events = [SchedEv.spawn 0 2] ∧
    ∀ k, (schedRun (some 3) 7 schedEnvZero 2 k).nextTick = 2 + k * 7 :=
  set_interval_initial_tick (some 3) 7 2 schedEnvZero (by decide)

/-- Invocation ids the scheduler has spawned that are not reported done at
iteration i: the invocations in flight when iteration i is about to run. -/
def inFlightIds (env : SchedEnv) (i spawned : ℕ) : List ℕ :=
  (List.range spawned).filter fun id => !env.doneAt i id

lemma schedStep_spawn_eq (N : ℕ) (delay : ℚ) (env : SchedEnv) (s : SchedState)
    (h : (s.running.filter fun id => !env.doneAt s.iter id).length < N) :
    schedStep (some N) delay env s =
      { running := s.spawned :: s.running.filter fun id => !env.doneAt s.iter id,
        nextTick := s.nextTick + delay,
        now := (if 0 < s.nextTick + delay - (s.now + env.overhead s.iter)
            then s.nextTick + delay else s.now + env.overhead s.iter)
          + env.wakeLate s.iter,
        spawned := s.spawned + 1, iter := s.iter + 1,
        events := s.events ++ [SchedEv.spawn s.spawned s.now] } := by
  simp [schedStep, h]

lemma schedStep_skip_eq (N : ℕ) (delay : ℚ) (env : SchedEnv) (s : SchedState)
    (h : ¬ (s.running.filter fun id => !env.doneAt s.iter id).length < N) :
    schedStep (some N) delay env s =
      { running := s.running.filter fun id => !env.doneAt s.iter id,
        nextTick := s.nextTick + delay,
        now := (if 0 < s.nextTick + delay - (s.now + env.overhead s.iter)
            then s.nextTick + delay else s.now + env.overhead s.iter)
          + env.wakeLate s.iter,
        spawned := s.spawned, iter := s.iter + 1,
        events := s.events
          ++ [SchedEv.skipWarn
              (s.running.filter fun id => !env.doneAt s.iter id).length
              N s.now] } := by
  simp [schedStep, h]

lemma schedRun_running_inv (N : ℕ) (delay start : ℚ) (env : SchedEnv)
    (k : ℕ) :
    (schedRun (some N) delay env start k).running.length ≤ N ∧
    (∀ id ∈ (schedRun (some N) delay env start k).running,
        id < (schedRun (some N) delay env start k).spawned) ∧
    (∀ id, id < (schedRun (some N) delay env start k).spawned →
        id ∉ (schedRun (some N) delay env start k).running →
        ∃ j, j < k ∧ env.doneAt j id = true) := by
  induction k with
  | zero =>
    refine ⟨by simp [schedRun, schedInit], by simp [schedRun, schedInit], ?_⟩
    intro id hid
    simp [schedRun, schedInit] at hid
  | succ n ih =>
    obtain ⟨ih1, ih2, ih3⟩ := ih
    have hiter := schedRun_iter (some N) delay env start n
    have hrun : schedRun (some N) delay env start (n + 1)
        = schedStep (some N) delay env (schedRun (some N) delay env start n) :=
      rfl
    set s := schedRun (some N) delay env start n with hs
    have hfl : (s.running.filter fun id => !env.doneAt s.iter id).length
        ≤ s.running.length := List.length_filter_le _ _
    by_cases hsp : (s.running.filter fun id => !env.doneAt s.iter id).length < N
    · rw [hrun, schedStep_spawn_eq N delay env s hsp]
      refine ⟨by simp; omega, ?_, ?_⟩
      · intro id hid
        simp only [List.mem_cons] at hid
        rcases hid with rfl | hid
        · simp
        · have := ih2 id (List.mem_of_mem_filter hid)
          simp
          omega
      · intro id hlt hnotin
        simp only [List.mem_cons, not_or] at hlt hnotin
        obtain ⟨hne, hnf⟩ := hnotin
        have hlt2 : id < s.spawned := by
          rcases Nat.lt_succ_iff_lt_or_eq.1 hlt with h | h
          · exact h
          · exact absurd h hne
        by_cases hin : id ∈ s.running
        · have hdn : env.doneAt s.iter id = true := by
            by_contra hdn
            exact hnf (List.mem_filter.2 ⟨hin, by simp [hdn]⟩)
          exact ⟨n, Nat.lt_succ_self n, by rwa [hiter] at hdn⟩
        · obtain ⟨j, hj, hdj⟩ := ih3 id hlt2 hin
          exact ⟨j, Nat.lt_succ_of_lt hj, hdj⟩
    · rw [hrun, schedStep_skip_eq N delay env s hsp]
      refine ⟨by simp; omega, ?_, ?_⟩
      · intro id hid
        exact ih2 id (List.mem_of_mem_filter hid)
      · intro id hlt hnotin
        by_cases hin : id ∈ s.running
        · have hdn : env.doneAt s.iter id = true := by
            by_contra hdn
            exact hnotin (List.mem_filter.2 ⟨hin, by simp [hdn]⟩)
          exact ⟨n, Nat.lt_succ_self n, by rwa [hiter] at hdn⟩
        · obtain ⟨j, hj, hdj⟩ := ih3 id hlt hin
          exact ⟨j, Nat.lt_succ_of_lt hj, hdj⟩

/-- Claim C2: with max_parallel = N and doneness monotone in time, the
number of in-flight invocations after any k iterations is at most N; an
iteration whose pruned running set is not below N spawns nothing and only
emits the warning naming the in-flight count versus the limit; and no
iteration ever spawns more than one invocation, so skipped ticks are
dropped, never queued to run later. -/
theorem scheduler_max_parallel_bound (N : ℕ) (delay start : ℚ)
    (env : SchedEnv) (k : ℕ)
    (hmono : ∀ id i j, i ≤ j → env.doneAt i id = true → env.doneAt j id = true) :
    (inFlightIds env k (schedRun (some N) delay env start k).spawned).length ≤ N ∧
    (¬ ((schedRun (some N) delay env start k).running.filter
          fun id => !env.doneAt k id).length < N →
      (schedRun (some N) delay env start (k + 1)).spawned
          = (schedRun (some N) delay env start k).spawned ∧
      (schedRun (some N) delay env start (k + 1)).events
          = (schedRun (some N) delay env start k).events
            ++ [SchedEv.skipWarn
                ((schedRun (some N) delay env start k).running.filter
                  fun id => !env.doneAt k id).length
                N (schedRun (some N) delay env start k).now]) ∧
    (schedRun (some N) delay env start (k + 1)).spawned
        ≤ (schedRun (some N) delay env start k).spawned + 1 := by
  obtain ⟨inv1, inv2, inv3⟩ := schedRun_running_inv N delay start env k
  have hiter := schedRun_iter (some N) delay env start k
  have hrun : schedRun (some N) delay env start (k + 1)
      = schedStep (some N) delay env (schedRun (some N) delay env start k) :=
    rfl
  set s := schedRun (some N) delay env start k with hs
  refine ⟨?_, ?_, ?_⟩
  · have hsub : inFlightIds env k s.spawned ⊆ s.running := by
      intro id hmem
      obtain ⟨hr, hd⟩ := List.mem_filter.1 hmem
      have hlt := List.mem_range.1 hr
      by_contra hnotin
      obtain ⟨j, hj, hdj⟩ := inv3 id hlt hnotin
      have := hmono id j k (Nat.le_of_lt hj) hdj
      simp [this] at hd
    have hnd : (inFlightIds env k s.spawned).Nodup :=
      (List.nodup_range s.spawned).filter _
    exact le_trans (List.subperm_of_subset hnd hsub).length_le inv1
  · intro hsp
    rw [← hiter] at hsp
    rw [hrun, schedStep_skip_eq N delay env s hsp]
    exact ⟨rfl, by rw [hiter]⟩
  · by_cases hsp : (s.running.filter fun id => !env.doneAt s.iter id).length < N
    · rw [hrun, schedStep_spawn_eq N delay env s hsp]
    · rw [hrun, schedStep_skip_eq N delay env s hsp]
      simp

/-- Witness for C2 at N = 2, period 1, start 0, four iterations, in the
environment where no invocation ever completes. -/
theorem scheduler_max_parallel_bound_wit :
    (inFlightIds schedEnvZero 4 (schedRun (some 2) 1 schedEnvZero 0 4).spawned).length ≤ 2 ∧
    (¬ ((schedRun (some 2) 1 schedEnvZero 0 4).running.filter
          fun id => !schedEnvZero.doneAt 4 id).length < 2 →
      (schedRun (some 2) 1 schedEnvZero 0 (4 + 1)).spawned
          = (schedRun (some 2) 1 schedEnvZero 0 4).spawned ∧
      (schedRun (some 2) 1 schedEnvZero 0 (4 + 1)).events
          = (schedRun (some 2) 1 schedEnvZero 0 4).events
            ++ [SchedEv.skipWarn
                ((schedRun (some 2) 1 schedEnvZero 0 4).running.filter
                  fun id => !schedEnvZero.doneAt 4 id).length
                2 (schedRun (some 2) 1 schedEnvZero 0 4).now]) ∧
    (schedRun (some 2) 1 schedEnvZero 0 (4 + 1)).spawned
        ≤ (schedRun (some 2) 1 schedEnvZero 0 4).spawned + 1 :=
  scheduler_max_parallel_bound 2 1 0 schedEnvZero 4
    (fun id i j _ hd => by simp [schedEnvZero] at hd)

/-- Observable actions inside the body of a key watch created by
RabbitNode.watch_kv: the async-for begins iterating the watcher stream,
an entry is delivered to the handler, a handler error is logged with the
key name, the async-for ends because the stream terminated. -/
inductive WEv where
  | startIter (streamId : ℕ)
  | delivered (i : ℕ)
  | logWatchError (key : String)
  | passEnded (streamId : ℕ)
deriving DecidableEq, Repr

/-- Outcome of one invocation of the job wrapped by async_task. -/
inductive JOut where
  | jobOk
  | jobFail
deriving DecidableEq, Repr

/-- Observable actions of the supervising loop created by
RabbitNode.async_task: start of an invocation of fn, an action emitted
inside fn, the exception log naming the task, the throughput report, the
1-second backoff sleep completing, and the cooperative yield
(asyncio.sleep 0) completing. -/
inductive TEv where
  | invokeJob (k : ℕ)
  | jobEv (e : WEv)
  | logTaskError (name : String)
  | fpsReport (rate : ℚ)
  | backoff1
  | yielded
deriving DecidableEq, Repr

/-- Program counter of the supervising loop: about to call fn; suspended
at the post-success asyncio.sleep 0 (inside the try); suspended at the
asyncio.sleep 1 backoff (outside the try); or terminated because a
CancelledError propagated out of the loop. -/
inductive TPc where
  | callJob
  | yieldPt
  | backoff
  | stopped
deriving DecidableEq, Repr

/-- Environment of one supervised task: jobRun k gives the actions emitted
by invocation k of fn and its outcome; jobCancelPrefix k gives the actions
invocation k emitted before a cancellation landed at one of its internal
suspension points; timeAt k is time.time() read after invocation k
succeeds; cancelStep says at which machine step (if any) Task.cancel's
one-shot CancelledError is delivered at the current suspension point. -/
structure TaskEnv where
  jobRun : ℕ → List WEv × JOut
  jobCancelPrefix : ℕ → List WEv
  timeAt : ℕ → ℚ
  cancelStep : Option ℕ

/-- State of the supervising loop: program counter, index of the next
invocation of fn, the rolling throughput counters tick and started, the
global step index, and the trace. -/
structure TaskState where
  pc : TPc
  k : ℕ
  tick : ℕ
  started : ℚ
  stepIdx : ℕ
  events : List TEv
deriving DecidableEq, Repr

/-- One scheduling step of the loop inside async_task. At callJob the
loop awaits fn(): on success it updates the throughput counters (and
every >10 seconds logs the rate and resets them) and moves to the
cooperative yield; on any exception - including a CancelledError
delivered while fn is suspended, since the bare except clause catches
BaseException - it logs the error with the task name and moves to the
1-second backoff. At yieldPt the sleep(0) either completes or, if the
cancellation lands there, raises CancelledError which the bare except
again catches, logging and moving to the backoff. At backoff the
sleep(1) is outside the try, so a cancellation landing there propagates
and the task stops; otherwise the loop repeats. -/
def taskStep (name : String) (env : TaskEnv) (s : TaskState) : TaskState :=
  let cancelHere : Bool := env.cancelStep = some s.stepIdx
  match s.pc with
  | TPc.stopped => s
  | TPc.callJob =>
    if cancelHere then
      { s with
        pc := TPc.backoff, k := s.k + 1, stepIdx := s.stepIdx + 1,
        events := s.events ++ [TEv.invokeJob s.k]
          ++ (env.jobCancelPrefix s.k).map TEv.jobEv
          ++ [TEv.logTaskError name] }
    else
      match env.jobRun s.k with
      | (evs, JOut.jobOk) =>
        let now := env.timeAt s.k
        if 10 < now - s.started then
          { pc := TPc.yieldPt, k := s.k + 1, tick := 0, started := now,
            stepIdx := s.stepIdx + 1,
            events := s.events ++ [TEv.invokeJob s.k] ++ evs.map TEv.jobEv
              ++ [TEv.fpsReport ((s.tick + 1 : ℚ) / (now - s.started))] }
        else
          { pc := TPc.yieldPt, k := s.k + 1, tick := s.tick + 1,
            started := s.started, stepIdx := s.stepIdx + 1,
            events := s.events ++ [TEv.invokeJob s.k] ++ evs.map TEv.jobEv }
      | (evs, JOut.jobFail) =>
        { s with
          pc := TPc.backoff, k := s.k + 1, stepIdx := s.stepIdx + 1,
          events := s.events ++ [TEv.invokeJob s.k] ++ evs.map TEv.jobEv
            ++ [TEv.logTaskError name] }
  | TPc.yieldPt =>
    if cancelHere then
      { s with
        pc := TPc.backoff, stepIdx := s.stepIdx + 1,
        events := s.events ++ [TEv.logTaskError name] }
    else
      { s with
        pc := TPc.callJob, stepIdx := s.stepIdx + 1,
        events := s.events ++ [TEv.yielded] }
  | TPc.backoff =>
    if cancelHere then
      { s with pc := TPc.stopped, stepIdx := s.stepIdx + 1 }
    else
      { s with
        pc := TPc.callJob, stepIdx := s.stepIdx + 1,
        events := s.events ++ [TEv.backoff1] }

/-- Task state when async_task starts the loop: started := time.time(),
tick := 0, about to call fn. -/
def taskInit (clock : ℚ) : TaskState :=
  { pc := TPc.callJob, k := 0, tick := 0, started := clock, stepIdx := 0,
    events := [] }

/-- The supervised task after n scheduling steps. -/
def taskRun (name : String) (env : TaskEnv) (clock : ℚ) : ℕ → TaskState
  | 0 => taskInit clock
  | n + 1 => taskStep name env (taskRun name env clock n)

/-- n scheduling steps from an arbitrary state. -/
def taskSteps (name : String) (env : TaskEnv) : ℕ → TaskState → TaskState
  | 0, s => s
  | n + 1, s => taskStep name env (taskSteps name env n s)

lemma taskRun_add (name : String) (env : TaskEnv) (clock : ℚ) (a b : ℕ) :
    taskRun name env clock (a + b)
      = taskSteps name env b (taskRun name env clock a) := by
  induction b with
  | zero => rfl
  | succ m ih => rw [← Nat.add_assoc, taskRun, taskSteps, ih]

lemma taskStep_callJob_fail (name : String) (env : TaskEnv) (s : TaskState)
    (evs : List WEv) (hpc : s.pc = TPc.callJob) (hnc : env.cancelStep = none)
    (hp : env.jobRun s.k = (evs, JOut.jobFail)) :
    taskStep name env s =
      { s with
        pc := TPc.backoff, k := s.k + 1, stepIdx := s.stepIdx + 1,
        events := s.events ++ [TEv.invokeJob s.k] ++ evs.map TEv.jobEv
          ++ [TEv.logTaskError name] } := by
  cases s with
  | mk pc k tick started stepIdx events =>
    simp only at hpc hp
    subst hpc
    simp [taskStep, hnc, hp]

lemma taskStep_callJob_ok (name : String) (env : TaskEnv) (s : TaskState)
    (evs : List WEv) (hpc : s.pc = TPc.callJob) (hnc : env.cancelStep = none)
    (hp : env.jobRun s.k = (evs, JOut.jobOk)) :
    taskStep name env s =
      if 10 < env.timeAt s.k - s.started then
        { pc := TPc.yieldPt, k := s.k + 1, tick := 0,
          started := env.timeAt s.k, stepIdx := s.stepIdx + 1,
          events := s.events ++ [TEv.invokeJob s.k] ++ evs.map TEv.jobEv
            ++ [TEv.fpsReport
                ((s.tick + 1 : ℚ) / (env.timeAt s.k - s.started))] }
      else
        { pc := TPc.yieldPt, k := s.k + 1, tick := s.tick + 1,
          started := s.started, stepIdx := s.stepIdx + 1,
          events := s.events ++ [TEv.invokeJob s.k] ++ evs.map TEv.jobEv } := by
  cases s with
  | mk pc k tick started stepIdx events =>
    simp only at hpc hp
    subst hpc
    simp [taskStep, hnc, hp]

lemma taskStep_yieldPt (name : String) (env : TaskEnv) (s : TaskState)
    (hpc : s.pc = TPc.yieldPt) (hnc : env.cancelStep = none) :
    taskStep name env s =
      { s with
        pc := TPc.callJob, stepIdx := s.stepIdx + 1,
        events := s.events ++ [TEv.yielded] } := by
  cases s with
  | mk pc k tick started stepIdx events =>
    simp only at hpc
    subst hpc
    simp [taskStep, hnc]

lemma taskStep_backoff (name : String) (env : TaskEnv) (s : TaskState)
    (hpc : s.pc = TPc.backoff) (hnc : env.cancelStep = none) :
    taskStep name env s =
      { s with
        pc := TPc.callJob, stepIdx := s.stepIdx + 1,
        events := s.events ++ [TEv.backoff1] } := by
  cases s with
  | mk pc k tick started stepIdx events =>
    simp only at hpc
    subst hpc
    simp [taskStep, hnc]

/-- With no cancellation, every loop iteration of async_task takes exactly
two scheduling steps (the job call, then the yield or the backoff), so
after 2m steps the loop is about to begin invocation m. -/
lemma taskRun_even (name : String) (env : TaskEnv) (clock : ℚ)
    (hnc : env.cancelStep = none) (m : ℕ) :
    (taskRun name env clock (2 * m)).pc = TPc.callJob ∧
    (taskRun name env clock (2 * m)).k = m := by
  induction m with
  | zero => exact ⟨rfl, rfl⟩
  | succ m ih =>
    obtain ⟨hpc, hk⟩ := ih
    have he : 2 * (m + 1) = 2 * m + 1 + 1 := by ring
    have h1 : taskRun name env clock (2 * m + 1)
        = taskStep name env (taskRun name env clock (2 * m)) := rfl
    have h2 : taskRun name env clock (2 * m + 1 + 1)
        = taskStep name env (taskRun name env clock (2 * m + 1)) := rfl
    rcases hp : env.jobRun (taskRun name env clock (2 * m)).k with ⟨evs, out⟩
    cases out with
    | jobOk =>
      have hs1pc : (taskRun name env clock (2 * m + 1)).pc = TPc.yieldPt := by
        rw [h1, taskStep_callJob_ok name env _ evs hpc hnc hp]
        split_ifs <;> rfl
      have hs1k : (taskRun name env clock (2 * m + 1)).k = m + 1 := by
        rw [h1, taskStep_callJob_ok name env _ evs hpc hnc hp]
        split_ifs <;> simp [hk]
      rw [he, h2, taskStep_yieldPt name env _ hs1pc hnc]
      exact ⟨rfl, hs1k⟩
    | jobFail =>
      have hs1pc : (taskRun name env clock (2 * m + 1)).pc = TPc.backoff := by
        rw [h1, taskStep_callJob_fail name env _ evs hpc hnc hp]
      have hs1k : (taskRun name env clock (2 * m + 1)).k = m + 1 := by
        rw [h1, taskStep_callJob_fail name env _ evs hpc hnc hp]
        simp [hk]
      rw [he, h2, taskStep_backoff name env _ hs1pc hnc]
      exact ⟨rfl, hs1k⟩

/-- Claim C3: without cancellation, if invocation k of the job fails and
invocation k+1 succeeds, then the failing iteration logs the error with
the task's name, waits exactly the fixed 1-second backoff, and the loop
still performs invocation k+1; after the successful invocation k+1 the
loop yields control exactly once (one sleep-0, no backoff) and
immediately begins invocation k+2. -/
theorem supervised_task_isolates_job_errors (name : String) (env : TaskEnv)
    (clock : ℚ) (k : ℕ) (hnc : env.cancelStep = none)
    (hfail : (env.jobRun k).2 = JOut.jobFail)
    (hsucc : (env.jobRun (k + 1)).2 = JOut.jobOk) :
    (taskRun name env clock (2 * k + 1)).events
        = (taskRun name env clock (2 * k)).events
          ++ [TEv.invokeJob k] ++ ((env.jobRun k).1).map TEv.jobEv
          ++ [TEv.logTaskError name] ∧
    (taskRun name env clock (2 * k + 2)).events
        = (taskRun name env clock (2 * k + 1)).events ++ [TEv.backoff1] ∧
    (∃ rest, (taskRun name env clock (2 * k + 3)).events
        = (taskRun name env clock (2 * k + 2)).events
          ++ TEv.invokeJob (k + 1) :: rest) ∧
    (taskRun name env clock (2 * k + 4)).events
        = (taskRun name env clock (2 * k + 3)).events ++ [TEv.yielded] ∧
    (∃ rest, (taskRun name env clock (2 * k + 5)).events
        = (taskRun name env clock (2 * k + 4)).events
          ++ TEv.invokeJob (k + 2) :: rest) := by
  obtain ⟨hpc0, hk0⟩ := taskRun_even name env clock hnc k
  rcases hp : env.jobRun k with ⟨evs, out⟩
  rw [hp] at hfail
  simp only at hfail
  subst hfail
  have hstep1 : taskRun name env clock (2 * k + 1)
      = taskStep name env (taskRun name env clock (2 * k)) := rfl
  have hfullA := taskStep_callJob_fail name env
    (taskRun name env clock (2 * k)) evs hpc0 hnc (by rw [hk0]; exact hp)
  have hA : (taskRun name env clock (2 * k + 1)).events
      = (taskRun name env clock (2 * k)).events
        ++ [TEv.invokeJob k] ++ evs.map TEv.jobEv
        ++ [TEv.logTaskError name] := by
    rw [hstep1, hfullA]
    simp [hk0]
  have hA_pc : (taskRun name env clock (2 * k + 1)).pc = TPc.backoff := by
    rw [hstep1, hfullA]
  have hstep2 : taskRun name env clock (2 * k + 2)
      = taskStep name env (taskRun name env clock (2 * k + 1)) := rfl
  have hfullB := taskStep_backoff name env
    (taskRun name env clock (2 * k + 1)) hA_pc hnc
  have hB : (taskRun name env clock (2 * k + 2)).events
      = (taskRun name env clock (2 * k + 1)).events ++ [TEv.backoff1] := by
    rw [hstep2, hfullB]
  have h2k2 : 2 * k + 2 = 2 * (k + 1) := by ring
  have hpc2 : (taskRun name env clock (2 * k + 2)).pc = TPc.callJob := by
    rw [h2k2]; exact (taskRun_even name env clock hnc (k + 1)).1
  have hk2 : (taskRun name env clock (2 * k + 2)).k = k + 1 := by
    rw [h2k2]; exact (taskRun_even name env clock hnc (k + 1)).2
  rcases hq : env.jobRun (k + 1) with ⟨evs2, out2⟩
  rw [hq] at hsucc
  simp only at hsucc
  subst hsucc
  have hstep3 : taskRun name env clock (2 * k + 3)
      = taskStep name env (taskRun name env clock (2 * k + 2)) := rfl
  have hfullC := taskStep_callJob_ok name env
    (taskRun name env clock (2 * k + 2)) evs2 hpc2 hnc (by rw [hk2]; exact hq)
  have hC : ∃ rest, (taskRun name env clock (2 * k + 3)).events
      = (taskRun name env clock (2 * k + 2)).events
        ++ TEv.invokeJob (k + 1) :: rest := by
    rw [hstep3, hfullC]
    split_ifs with h10
    · exact ⟨evs2.map TEv.jobEv
        ++ [TEv.fpsReport
            (((taskRun name env clock (2 * k + 2)).tick + 1 : ℚ)
              / (env.timeAt (taskRun name env clock (2 * k + 2)).k
                - (taskRun name env clock (2 * k + 2)).started))],
        by simp [hk2]⟩
    · exact ⟨evs2.map TEv.jobEv, by simp [hk2]⟩
  have hC_pc : (taskRun name env clock (2 * k + 3)).pc = TPc.yieldPt := by
    rw [hstep3, hfullC]
    split_ifs <;> rfl
  have hstep4 : taskRun name env clock (2 * k + 4)
      = taskStep name env (taskRun name env clock (2 * k + 3)) := rfl
  have hfullD := taskStep_yieldPt name env
    (taskRun name env clock (2 * k + 3)) hC_pc hnc
  have hD : (taskRun name env clock (2 * k + 4)).events
      = (taskRun name env clock (2 * k + 3)).events ++ [TEv.yielded] := by
    rw [hstep4, hfullD]
  have h2k4 : 2 * k + 4 = 2 * (k + 2) := by ring
  have hpc4 : (taskRun name env clock (2 * k + 4)).pc = TPc.callJob := by
    rw [h2k4]; exact (taskRun_even name env clock hnc (k + 2)).1
  have hk4 : (taskRun name env clock (2 * k + 4)).k = k + 2 := by
    rw [h2k4]; exact (taskRun_even name env clock hnc (k + 2)).2
  have hstep5 : taskRun name env clock (2 * k + 5)
      = taskStep name env (taskRun name env clock (2 * k + 4)) := rfl
  have hE : ∃ rest, (taskRun name env clock (2 * k + 5)).events
      = (taskRun name env clock (2 * k + 4)).events
        ++ TEv.invokeJob (k + 2) :: rest := by
    rcases hr : env.jobRun (k + 2) with ⟨evs3, out3⟩
    cases out3 with
    | jobOk =>
      have hfullE := taskStep_callJob_ok name env
        (taskRun name env clock (2 * k + 4)) evs3 hpc4 hnc (by rw [hk4]; exact hr)
      rw [hstep5, hfullE]
      split_ifs with h10
      · exact ⟨evs3.map TEv.jobEv
          ++ [TEv.fpsReport
              (((taskRun name env clock (2 * k + 4)).tick + 1 : ℚ)
                / (env.timeAt (taskRun name env clock (2 * k + 4)).k
                  - (taskRun name env clock (2 * k + 4)).started))],
          by simp [hk4]⟩
      · exact ⟨evs3.map TEv.jobEv, by simp [hk4]⟩
    | jobFail =>
      have hfullE := taskStep_callJob_fail name env
        (taskRun name env clock (2 * k + 4)) evs3 hpc4 hnc (by rw [hk4]; exact hr)
      rw [hstep5, hfullE]
      exact ⟨evs3.map TEv.jobEv ++ [TEv.logTaskError name], by simp [hk4]⟩
  refine ⟨by simp [hA, hp], hB, hC, hD, hE⟩

/-- Environment for the C3 witness: invocation 0 of the job raises,
every later invocation succeeds; no events inside the job, the clock
stays at 0, no cancellation. -/
def taskEnvRetry : TaskEnv :=
  { jobRun := fun n => ([], if n = 0 then JOut.jobFail else JOut.jobOk),
    jobCancelPrefix := fun _ => [],
    timeAt := fun _ => 0,
    cancelStep := none }

/-- Witness for C3 at k = 0 in taskEnvRetry. -/
theorem supervised_task_isolates_job_errors_wit :
    (taskRun "job" taskEnvRetry 0 (2 * 0 + 1)).events
        = (taskRun "job" taskEnvRetry 0 (2 * 0)).events
          ++ [TEv.invokeJob 0] ++ ((taskEnvRetry.jobRun 0).1).map TEv.jobEv
          ++ [TEv.logTaskError "job"] ∧
    (taskRun "job" taskEnvRetry 0 (2 * 0 + 2)).events
        = (taskRun "job" taskEnvRetry 0 (2 * 0 + 1)).events ++ [TEv.backoff1] ∧
    (∃ rest, (taskRun "job" taskEnvRetry 0 (2 * 0 + 3)).events
        = (taskRun "job" taskEnvRetry 0 (2 * 0 + 2)).events
          ++ TEv.invokeJob (0 + 1) :: rest) ∧
    (taskRun "job" taskEnvRetry 0 (2 * 0 + 4)).events
        = (taskRun "job" taskEnvRetry 0 (2 * 0 + 3)).events ++ [TEv.yielded] ∧
    (∃ rest, (taskRun "job" taskEnvRetry 0 (2 * 0 + 5)).events
        = (taskRun "job" taskEnvRetry 0 (2 * 0 + 4)).events
          ++ TEv.invokeJob (0 + 2) :: rest) :=
  supervised_task_isolates_job_errors "job" taskEnvRetry 0 0 rfl rfl rfl

lemma taskStep_not_stopped (name : String) (env : TaskEnv) (s : TaskState)
    (hpc : s.pc ≠ TPc.stopped)
    (hnch : env.cancelStep ≠ some s.stepIdx) :
    (taskStep name env s).pc ≠ TPc.stopped ∧
    (taskStep name env s).stepIdx = s.stepIdx + 1 := by
  cases s with
  | mk pc k tick started stepIdx events =>
    simp only at hpc hnch ⊢
    cases pc with
    | stopped => simp at hpc
    | callJob =>
      rcases hp : env.jobRun k with ⟨evs, out⟩
      cases out with
      | jobOk =>
        simp only [taskStep, hnch]
        simp [hp]
        split_ifs <;> simp
      | jobFail =>
        simp only [taskStep, hnch]
        simp [hp]
    | yieldPt => simp [taskStep, hnch]
    | backoff => simp [taskStep, hnch]

/-- Once the one-shot cancellation has already been delivered (its step
index lies strictly in the past), the supervising loop can never stop:
every further step keeps the program counter out of the stopped state. -/
lemma taskSteps_alive (name : String) (env : TaskEnv) (c : ℕ)
    (hc : env.cancelStep = some c) (n : ℕ) (s : TaskState)
    (h1 : s.pc ≠ TPc.stopped) (h2 : c < s.stepIdx) :
    (taskSteps name env n s).pc ≠ TPc.stopped ∧
    c < (taskSteps name env n s).stepIdx := by
  induction n with
  | zero => exact ⟨h1, h2⟩
  | succ m ih =>
    obtain ⟨ha, hb⟩ := ih
    have hnch : env.cancelStep ≠ some (taskSteps name env m s).stepIdx := by
      rw [hc]
      intro h
      have : c = (taskSteps name env m s).stepIdx := by injection h
      omega
    obtain ⟨hx, hy⟩ := taskStep_not_stopped name env (taskSteps name env m s) ha hnch
    have hstep : taskSteps name env (m + 1) s
        = taskStep name env (taskSteps name env m s) := rfl
    rw [hstep]
    exact ⟨hx, by omega⟩

/-- Environment for C4: every invocation of the job succeeds immediately
and emits nothing, and Task.cancel's one-shot CancelledError is delivered
at machine step 1, i.e. while the loop is suspended at the post-success
yield point (the asyncio.sleep 0 inside the try block). -/
def taskEnvCancelAtYield : TaskEnv :=
  { jobRun := fun _ => ([], JOut.jobOk),
    jobCancelPrefix := fun _ => [],
    timeAt := fun _ => 0,
    cancelStep := some 1 }

/-- Claim C4 names a code bug: a cancellation delivered at the
post-success yield point is caught by the bare except clause of
async_task (CancelledError is a BaseException), logged as a task error,
followed by the 1-second backoff, after which the loop performs the next
invocation and runs forever - the cancelled task never terminates, so
awaiting it after cancellation never completes, contrary to the claim
that cancellation at the yield point is immediate and the cancelled task
always terminates. -/
theorem cancel_at_yield_is_swallowed :
    TEv.logTaskError "t" ∈ (taskRun "t" taskEnvCancelAtYield 0 2).events ∧
    TEv.backoff1 ∈ (taskRun "t" taskEnvCancelAtYield 0 3).events ∧
    TEv.invokeJob 1 ∈ (taskRun "t" taskEnvCancelAtYield 0 4).events ∧
    ∀ n, (taskRun "t" taskEnvCancelAtYield 0 n).pc ≠ TPc.stopped := by
  have hst1 : taskRun "t" taskEnvCancelAtYield 0 1
      = { pc := TPc.yieldPt, k := 1, tick := 1, started := 0, stepIdx := 1,
          events := [TEv.invokeJob 0] } := by
    norm_num [taskRun, taskStep, taskInit, taskEnvCancelAtYield]
  have hst2 : taskRun "t" taskEnvCancelAtYield 0 2
      = { pc := TPc.backoff, k := 1, tick := 1, started := 0, stepIdx := 2,
          events := [TEv.invokeJob 0, TEv.logTaskError "t"] } := by
    norm_num [taskRun, taskStep, taskInit, taskEnvCancelAtYield]
  have hst3 : taskRun "t" taskEnvCancelAtYield 0 3
      = { pc := TPc.callJob, k := 1, tick := 1, started := 0, stepIdx := 3,
          events := [TEv.invokeJob 0, TEv.logTaskError "t", TEv.backoff1] } := by
    norm_num [taskRun, taskStep, taskInit, taskEnvCancelAtYield]
  have hst4 : taskRun "t" taskEnvCancelAtYield 0 4
      = { pc := TPc.yieldPt, k := 2, tick := 2, started := 0, stepIdx := 4,
          events := [TEv.invokeJob 0, TEv.logTaskError "t", TEv.backoff1,
            TEv.invokeJob 1] } := by
    norm_num [taskRun, taskStep, taskInit, taskEnvCancelAtYield]
  refine ⟨by rw [hst2]; simp, by rw [hst3]; simp, by rw [hst4]; simp, ?_⟩
  intro n
  rcases Nat.lt_or_ge n 2 with h | h
  · interval_cases n
    · simp [taskRun, taskInit]
    · rw [hst1]; simp
  · obtain ⟨j, rfl⟩ : ∃ j, n = 2 + j := ⟨n - 2, by omega⟩
    rw [taskRun_add "t" taskEnvCancelAtYield 0 2 j]
    refine (taskSteps_alive "t" taskEnvCancelAtYield 1 rfl j
      (taskRun "t" taskEnvCancelAtYield 0 2) ?_ ?_).1
    · rw [hst2]; simp
    · rw [hst2]; norm_num

/-- One pass of the async-for loop inside the task defined by watch_kv,
over the remaining entries of the watcher stream: each delivered entry is
handed to the handler inside a try block; a handler error is caught and
logged with the key name, and the loop continues with the next entry. -/
def watchBody (key : String) (hf : ℕ → Bool) : List ℕ → List WEv
  | [] => []
  | i :: rest =>
    (WEv.delivered i :: if hf i then [WEv.logWatchError key] else [])
      ++ watchBody key hf rest

/-- One invocation of the watch task body: the async-for begins iterating
the watcher, the entries are processed, and the pass ends when the stream
yields no further entry. -/
def watchPass (sid : ℕ) (key : String) (hf : ℕ → Bool)
    (entries : List ℕ) : List WEv :=
  WEv.startIter sid :: (watchBody key hf entries ++ [WEv.passEnded sid])

/-- watch_kv hands its task to async_task, whose while-True loop
re-invokes the body after it returns: invocation 0 iterates the stream
and sees its entries; the watcher is not restartable, so every later
invocation re-enters the async-for on the same exhausted watcher and sees
no entries; every pass returns normally because handler errors are
swallowed inside the loop. -/
def watchTaskEnv (sid : ℕ) (key : String) (hf : ℕ → Bool)
    (entries : List ℕ) : TaskEnv :=
  { jobRun := fun n =>
      (watchPass sid key hf (if n = 0 then entries else []), JOut.jobOk),
    jobCancelPrefix := fun _ => [],
    timeAt := fun _ => 0,
    cancelStep := none }

lemma watchBody_delivered (key : String) (hf : ℕ → Bool) (es : List ℕ) :
    ∀ j ∈ es, WEv.delivered j ∈ watchBody key hf es := by
  induction es with
  | nil => simp
  | cons i rest ih =>
    intro j hj
    rcases List.mem_cons.1 hj with rfl | hj
    · simp [watchBody]
    · simp only [watchBody, List.mem_append, List.mem_cons]
      exact Or.inr (ih j hj)

lemma watchBody_logged (key : String) (hf : ℕ → Bool) (es : List ℕ) :
    ∀ i ∈ es, hf i = true → WEv.logWatchError key ∈ watchBody key hf es := by
  induction es with
  | nil => simp
  | cons i rest ih =>
    intro j hj hfj
    rcases List.mem_cons.1 hj with rfl | hj
    · simp [watchBody, hfj]
    · simp only [watchBody, List.mem_append, List.mem_cons]
      exact Or.inr (ih j hj hfj)

lemma watchBody_shape (key : String) (hf : ℕ → Bool) (es : List ℕ) :
    ∀ e ∈ watchBody key hf es,
      (∃ j, e = WEv.delivered j) ∨ e = WEv.logWatchError key := by
  induction es with
  | nil => simp [watchBody]
  | cons i rest ih =>
    intro e he
    simp only [watchBody, List.mem_append, List.mem_cons] at he
    rcases he with (rfl | hite) | hrest
    · exact Or.inl ⟨i, rfl⟩
    · by_cases hfi : hf i
      · simp [hfi] at hite
        exact Or.inr hite
      · simp [hfi] at hite
    · exact ih e hrest

lemma watchPass_startIter (sid : ℕ) (key : String) (hf : ℕ → Bool)
    (es : List ℕ) :
    ∀ w ∈ watchPass sid key hf es, ∀ s2, w = WEv.startIter s2 → s2 = sid := by
  intro w hw s2 hws
  subst hws
  simp only [watchPass, List.mem_cons, List.mem_append] at hw
  rcases hw with h | (h | h)
  · injection h with h2
  · rcases watchBody_shape key hf es _ h with ⟨j, hj⟩ | hj
    · simp at hj
    · simp at hj
  · simp at h

lemma taskStep_stopped (name : String) (env : TaskEnv) (s : TaskState)
    (hpc : s.pc = TPc.stopped) : taskStep name env s = s := by
  cases s with
  | mk pc k tick started stepIdx events =>
    simp only at hpc
    subst hpc
    rfl

/-- In the machine of a supervised watch task, every startIter action in
the trace names the one watcher opened by watch_kv before the task
started: the loop never opens a new subscription. -/
lemma watchTask_single_stream (sid : ℕ) (key : String) (hf : ℕ → Bool)
    (entries : List ℕ) (name : String) (clock : ℚ) (n : ℕ) :
    ∀ e ∈ (taskRun name (watchTaskEnv sid key hf entries) clock n).events,
      ∀ s2, e = TEv.jobEv (WEv.startIter s2) → s2 = sid := by
  induction n with
  | zero => simp [taskRun, taskInit]
  | succ m ih =>
    have hnc : (watchTaskEnv sid key hf entries).cancelStep = none := rfl
    have hstep : taskRun name (watchTaskEnv sid key hf entries) clock (m + 1)
        = taskStep name (watchTaskEnv sid key hf entries)
            (taskRun name (watchTaskEnv sid key hf entries) clock m) := rfl
    set s := taskRun name (watchTaskEnv sid key hf entries) clock m with hs
    intro e he s2 hes
    subst hes
    cases hpc : s.pc with
    | stopped =>
      rw [hstep, taskStep_stopped name _ s hpc] at he
      exact ih _ he s2 rfl
    | callJob =>
      have hp : (watchTaskEnv sid key hf entries).jobRun s.k
          = (watchPass sid key hf (if s.k = 0 then entries else []),
             JOut.jobOk) := rfl
      rw [hstep, taskStep_callJob_ok name _ s _ hpc hnc hp] at he
      have he2 : TEv.jobEv (WEv.startIter s2) ∈ s.events ∨
          WEv.startIter s2
            ∈ watchPass sid key hf (if s.k = 0 then entries else []) := by
        split_ifs at he ⊢ <;> simp at he <;> tauto
      rcases he2 with h | h
      · exact ih _ h s2 rfl
      · exact watchPass_startIter sid key hf _ _ h s2 rfl
    | yieldPt =>
      rw [hstep, taskStep_yieldPt name _ s hpc hnc] at he
      simp only [List.mem_append, List.mem_singleton] at he
      rcases he with h | h
      · exact ih _ h s2 rfl
      · simp at h
    | backoff =>
      rw [hstep, taskStep_backoff name _ s hpc hnc] at he
      simp only [List.mem_append, List.mem_singleton] at he
      rcases he with h | h
      · exact ih _ h s2 rfl
      · simp at h

/-- Claim C8 is false on the code at this input: a watch on key pose over
a stream (watcher id 7) that delivers one entry and then terminates. The
async_task wrapper around the watch loop re-invokes the loop body after
the stream has ended, so the trace restarts iteration of the closed
stream: startIter 7 occurs a second time, after passEnded 7. -/
theorem watch_restarts_closed_stream :
    (taskRun "on_update" (watchTaskEnv 7 "pose" (fun _ => false) [0]) 0 3).events
      = [TEv.invokeJob 0, TEv.jobEv (WEv.startIter 7),
         TEv.jobEv (WEv.delivered 0), TEv.jobEv (WEv.passEnded 7),
         TEv.yielded, TEv.invokeJob 1, TEv.jobEv (WEv.startIter 7),
         TEv.jobEv (WEv.passEnded 7)] ∧
    ((taskRun "on_update" (watchTaskEnv 7 "pose" (fun _ => false) [0]) 0 3).events.count
        (TEv.jobEv (WEv.startIter 7))) = 2 := by
  have h : (taskRun "on_update" (watchTaskEnv 7 "pose" (fun _ => false) [0]) 0 3).events
      = [TEv.invokeJob 0, TEv.jobEv (WEv.startIter 7),
         TEv.jobEv (WEv.delivered 0), TEv.jobEv (WEv.passEnded 7),
         TEv.yielded, TEv.invokeJob 1, TEv.jobEv (WEv.startIter 7),
         TEv.jobEv (WEv.passEnded 7)] := by
    simp [taskRun, taskStep, taskInit, watchTaskEnv, watchPass, watchBody]
    norm_num
  refine ⟨h, by rw [h]; decide⟩

/-- Claim C8 (amended): a handler error on update i is caught, logged
with the key name, and every update of the stream - including i+1 - is
still delivered and handled within the same pass; but when the stream
terminates, the supervising loop immediately re-invokes the watch body,
restarting iteration of the same exhausted watcher on every later
iteration (it never opens a new subscription: every startIter in the
trace names the original watcher). -/
theorem watch_handler_isolated_but_loop_restarted
    (sid : ℕ) (key : String) (hf : ℕ → Bool) (entries : List ℕ)
    (name : String) (clock : ℚ) (i : ℕ) (hi : i ∈ entries)
    (hfi : hf i = true) :
    (∀ j ∈ entries, WEv.delivered j ∈ watchBody key hf entries) ∧
    WEv.logWatchError key ∈ watchBody key hf entries ∧
    (∀ m, TEv.jobEv (WEv.startIter sid)
        ∈ (taskRun name (watchTaskEnv sid key hf entries) clock
            (2 * m + 1)).events) ∧
    (∀ n, ∀ e ∈ (taskRun name (watchTaskEnv sid key hf entries) clock n).events,
        ∀ s2, e = TEv.jobEv (WEv.startIter s2) → s2 = sid) := by
  refine ⟨watchBody_delivered key hf entries,
    watchBody_logged key hf entries i hi hfi, ?_, ?_⟩
  · intro m
    have hnc : (watchTaskEnv sid key hf entries).cancelStep = none := rfl
    obtain ⟨hpc, hk⟩ :=
      taskRun_even name (watchTaskEnv sid key hf entries) clock hnc m
    have hp : (watchTaskEnv sid key hf entries).jobRun
        (taskRun name (watchTaskEnv sid key hf entries) clock (2 * m)).k
        = (watchPass sid key hf
            (if (taskRun name (watchTaskEnv sid key hf entries) clock
                (2 * m)).k = 0 then entries else []),
           JOut.jobOk) := rfl
    have hstep : taskRun name (watchTaskEnv sid key hf entries) clock
          (2 * m + 1)
        = taskStep name (watchTaskEnv sid key hf entries)
            (taskRun name (watchTaskEnv sid key hf entries) clock (2 * m)) :=
      rfl
    rw [hstep, taskStep_callJob_ok name _ _ _ hpc hnc hp]
    split_ifs <;> simp [watchPass]
  · intro n
    exact watchTask_single_stream sid key hf entries name clock n

/-- Witness for C8 (amended): watcher 0 on key pose, entries 0 and 1,
handler raising on entry 0. -/
theorem watch_handler_isolated_but_loop_restarted_wit :
    (∀ j ∈ [0, 1], WEv.delivered j
        ∈ watchBody "pose" (fun n => n == 0) [0, 1]) ∧
    WEv.logWatchError "pose" ∈ watchBody "pose" (fun n => n == 0) [0, 1] ∧
    (∀ m, TEv.jobEv (WEv.startIter 0)
        ∈ (taskRun "w" (watchTaskEnv 0 "pose" (fun n => n == 0) [0, 1]) 0
            (2 * m + 1)).events) ∧
    (∀ n, ∀ e ∈ (taskRun "w" (watchTaskEnv 0 "pose" (fun n => n == 0)
          [0, 1]) 0 n).events,
        ∀ s2, e = TEv.jobEv (WEv.startIter s2) → s2 = 0) :=
  watch_handler_isolated_but_loop_restarted 0 "pose" (fun n => n == 0)
    [0, 1] "w" 0 0 (by simp) rfl

/-- How awaiting one worker task behaves during __close, after the
cancel request: it finishes normally, it finishes by raising the expected
CancelledError, it raises some other exception, or it never completes. -/
inductive AwaitFate where
  | finishes
  | cancels
  | raises
  | hangs
deriving DecidableEq, Repr

/-- Environment of the shutdown path: isDone t is worker.done() when
__close reaches worker t, and fate t is the behaviour of await worker. -/
structure CloseEnv where
  isDone : ℕ → Bool
  fate : ℕ → AwaitFate

/-- Observable actions of __close: the user close hook, closing the NATS
client, stopping one kv watcher, requesting cancellation of one worker,
one await of a worker completing, one await of a worker raising a
non-cancellation error. -/
inductive CloseEv where
  | userCloseHook
  | busClosed
  | watcherStopped (wid : ℕ)
  | cancelRequested (tid : ℕ)
  | awaited (tid : ℕ)
  | awaitRaised (tid : ℕ)
deriving DecidableEq, Repr

/-- Result of the for-worker loop at the end of __close: it finishes, it
aborts because an await re-raised a non-cancellation error, or it never
returns because an await hangs. Each case carries the actions performed
and the ids of the workers whose task actually terminated. -/
inductive DrainOut where
  | ok (evs : List CloseEv) (terminated : List ℕ)
  | err (evs : List CloseEv) (terminated : List ℕ)
  | stuck (evs : List CloseEv) (terminated : List ℕ)
deriving DecidableEq, Repr

/-- The loop over self.tasks in __close: each worker that is not done is
cancelled, then awaited; the expected CancelledError is swallowed and the
loop continues; any other exception propagates out of __close, aborting
the loop; a worker that never completes leaves __close suspended. -/
def drainTasks (env : CloseEnv) : List ℕ → DrainOut
  | [] => DrainOut.ok [] []
  | t :: rest =>
    let pre := if env.isDone t then ([] : List CloseEv)
      else [CloseEv.cancelRequested t]
    match env.fate t with
    | AwaitFate.hangs => DrainOut.stuck pre []
    | AwaitFate.raises => DrainOut.err (pre ++ [CloseEv.awaitRaised t]) [t]
    | AwaitFate.finishes =>
      match drainTasks env rest with
      | DrainOut.ok evs term =>
        DrainOut.ok (pre ++ [CloseEv.awaited t] ++ evs) (t :: term)
      | DrainOut.err evs term =>
        DrainOut.err (pre ++ [CloseEv.awaited t] ++ evs) (t :: term)
      | DrainOut.stuck evs term =>
        DrainOut.stuck (pre ++ [CloseEv.awaited t] ++ evs) (t :: term)
    | AwaitFate.cancels =>
      match drainTasks env rest with
      | DrainOut.ok evs term =>
        DrainOut.ok (pre ++ [CloseEv.awaited t] ++ evs) (t :: term)
      | DrainOut.err evs term =>
        DrainOut.err (pre ++ [CloseEv.awaited t] ++ evs) (t :: term)
      | DrainOut.stuck evs term =>
        DrainOut.stuck (pre ++ [CloseEv.awaited t] ++ evs) (t :: term)

/-- State of one RabbitNode as the shutdown path sees it: whether the
NATS client is set, the registered kv watcher ids, the registered task
ids (self.tasks), and every task living in the event loop together with
its done flag - including tasks that were created but never registered. -/
structure NodeSt where
  ncConnected : Bool
  kvWatchers : List ℕ
  tasks : List ℕ
  loopTasks : List (ℕ × Bool)
deriving DecidableEq, Repr

/-- async_task: creates a task in the event loop and appends it to
self.tasks. -/
def asyncTaskCreate (st : NodeSt) (tid : ℕ) : NodeSt :=
  { st with
    loopTasks := st.loopTasks ++ [(tid, false)],
    tasks := st.tasks ++ [tid] }

/-- set_interval: creates the runner task in the event loop and returns
it to the caller without registering it anywhere on the node. -/
def setIntervalCreate (st : NodeSt) (tid : ℕ) : NodeSt × ℕ :=
  ({ st with loopTasks := st.loopTasks ++ [(tid, false)] }, tid)

/-- watch_kv: records the watcher and hands the watch loop to async_task. -/
def watchKvCreate (st : NodeSt) (wid tid : ℕ) : NodeSt :=
  asyncTaskCreate { st with kvWatchers := st.kvWatchers ++ [wid] } tid

/-- Mark the terminated worker ids as done in the event-loop task list. -/
def markDone (term : List ℕ) (lt : List (ℕ × Bool)) : List (ℕ × Bool) :=
  lt.map fun p => if p.1 ∈ term then (p.1, true) else p

/-- Result of __close as a whole. -/
inductive CloseOut where
  | completed (evs : List CloseEv) (final : NodeSt)
  | err (evs : List CloseEv)
  | stuck (evs : List CloseEv)
deriving DecidableEq, Repr

/-- RabbitNode.__close: run the user close hook, close the NATS client
when set, stop every registered kv watcher, then cancel and await every
task in self.tasks. On completion the awaited workers are done; event
loop tasks the node never registered (the set_interval runners) are
untouched. -/
def closeNode (env : CloseEnv) (st : NodeSt) : CloseOut :=
  let pre := [CloseEv.userCloseHook]
    ++ (if st.ncConnected then [CloseEv.busClosed] else [])
    ++ st.kvWatchers.map CloseEv.watcherStopped
  match drainTasks env st.tasks with
  | DrainOut.ok evs term =>
    CloseOut.completed (pre ++ evs)
      { st with
        ncConnected := false,
        loopTasks := markDone term st.loopTasks }
  | DrainOut.err evs _ => CloseOut.err (pre ++ evs)
  | DrainOut.stuck evs _ => CloseOut.stuck (pre ++ evs)

lemma drainTasks_ok (env : CloseEnv) (ts : List ℕ) (evs : List CloseEv)
    (term : List ℕ) (h : drainTasks env ts = DrainOut.ok evs term) :
    term = ts ∧
    (∀ t ∈ ts, CloseEv.awaited t ∈ evs) ∧
    (∀ e ∈ evs, (∃ t, e = CloseEv.cancelRequested t)
      ∨ ∃ t, e = CloseEv.awaited t) := by
  induction ts generalizing evs term with
  | nil =>
    simp only [drainTasks, DrainOut.ok.injEq] at h
    obtain ⟨h1, h2⟩ := h
    subst h1
    subst h2
    simp
  | cons t rest ih =>
    cases hf : env.fate t with
    | hangs => simp [drainTasks, hf] at h
    | raises => simp [drainTasks, hf] at h
    | finishes =>
      cases hr : drainTasks env rest with
      | ok evs2 term2 =>
        simp only [drainTasks, hf, hr, DrainOut.ok.injEq] at h
        obtain ⟨h1, h2⟩ := h
        subst h1
        subst h2
        obtain ⟨ihterm, ihmem, ihshape⟩ := ih evs2 term2 hr
        refine ⟨by rw [ihterm], ?_, ?_⟩
        · intro u hu
          rcases List.mem_cons.1 hu with rfl | hu
          · simp
          · simp only [List.mem_append]
            exact Or.inr (ihmem u hu)
        · intro e he
          simp only [List.mem_append, List.mem_singleton] at he
          rcases he with (he | rfl) | he
          · split_ifs at he
            · simp at he
            · simp at he
              subst he
              exact Or.inl ⟨t, rfl⟩
          · exact Or.inr ⟨t, rfl⟩
          · exact ihshape e he
      | err evs2 term2 => simp [drainTasks, hf, hr] at h
      | stuck evs2 term2 => simp [drainTasks, hf, hr] at h
    | cancels =>
      cases hr : drainTasks env rest with
      | ok evs2 term2 =>
        simp only [drainTasks, hf, hr, DrainOut.ok.injEq] at h
        obtain ⟨h1, h2⟩ := h
        subst h1
        subst h2
        obtain ⟨ihterm, ihmem, ihshape⟩ := ih evs2 term2 hr
        refine ⟨by rw [ihterm], ?_, ?_⟩
        · intro u hu
          rcases List.mem_cons.1 hu with rfl | hu
          · simp
          · simp only [List.mem_append]
            exact Or.inr (ihmem u hu)
        · intro e he
          simp only [List.mem_append, List.mem_singleton] at he
          rcases he with (he | rfl) | he
          · split_ifs at he
            · simp at he
            · simp at he
              subst he
              exact Or.inl ⟨t, rfl⟩
          · exact Or.inr ⟨t, rfl⟩
          · exact ihshape e he
      | err evs2 term2 => simp [drainTasks, hf, hr] at h
      | stuck evs2 term2 => simp [drainTasks, hf, hr] at h

/-- Claim C1 (amended): whenever __close runs to completion, every task
registered in self.tasks has been awaited and is done, every registered
kv watcher has been stopped, and the user close hook ran exactly once,
as the very first action, before the NATS client was released; but event
loop tasks never registered on the node - the runner tasks returned by
set_interval - are not cancelled by __close and keep whatever state they
had. -/
theorem close_drains_registered_components (env : CloseEnv) (st : NodeSt)
    (evs : List CloseEv) (stF : NodeSt)
    (hc : closeNode env st = CloseOut.completed evs stF) :
    (∀ tid ∈ st.tasks, CloseEv.awaited tid ∈ evs) ∧
    (∀ tid ∈ st.tasks, ∀ b : Bool,
        (tid, b) ∈ st.loopTasks → (tid, true) ∈ stF.loopTasks) ∧
    (∀ wid ∈ st.kvWatchers, CloseEv.watcherStopped wid ∈ evs) ∧
    evs.count CloseEv.userCloseHook = 1 ∧
    (∃ rest, evs = CloseEv.userCloseHook :: rest ∧
      (st.ncConnected = true → CloseEv.busClosed ∈ rest)) ∧
    (∀ p ∈ st.loopTasks, p.1 ∉ st.tasks → p ∈ stF.loopTasks) := by
  rcases hdr : drainTasks env st.tasks with ⟨evs0, term⟩ | ⟨evs0, term⟩
    | ⟨evs0, term⟩
  · simp only [closeNode, hdr] at hc
    injection hc with h1 h2
    subst h1
    subst h2
    obtain ⟨hterm, hmem, hshape⟩ := drainTasks_ok env st.tasks evs0 term hdr
    subst hterm
    have hhs : CloseEv.userCloseHook ∉ evs0 := by
      intro hmemb
      rcases hshape CloseEv.userCloseHook hmemb with ⟨t, ht⟩ | ⟨t, ht⟩ <;>
        simp at ht
    refine ⟨?_, ?_, ?_, ?_, ?_, ?_⟩
    · intro tid htid
      exact List.mem_append.2 (Or.inr (hmem tid htid))
    · intro tid htid b hb
      exact List.mem_map.2 ⟨(tid, b), hb, by simp [htid]⟩
    · intro wid hwid
      exact List.mem_append.2 (Or.inl (List.mem_append.2
        (Or.inr (List.mem_map.2 ⟨wid, hwid, rfl⟩))))
    · have h1 : ([CloseEv.userCloseHook] : List CloseEv).count
          CloseEv.userCloseHook = 1 := rfl
      have h2 : ((if st.ncConnected then [CloseEv.busClosed] else [])
          : List CloseEv).count CloseEv.userCloseHook = 0 := by
        split_ifs <;> rfl
      have h3 : (st.kvWatchers.map CloseEv.watcherStopped).count
          CloseEv.userCloseHook = 0 := by
        refine List.count_eq_zero.2 ?_
        intro hmemb
        rcases List.mem_map.1 hmemb with ⟨w, _, hw⟩
        simp at hw
      have h4 : evs0.count CloseEv.userCloseHook = 0 :=
        List.count_eq_zero.2 hhs
      simp [List.count_append, h1, h2, h3, h4]
    · refine ⟨((if st.ncConnected then [CloseEv.busClosed] else [])
          ++ st.kvWatchers.map CloseEv.watcherStopped) ++ evs0, by simp, ?_⟩
      intro hnc
      rw [hnc]
      simp
    · intro p hp hnp
      exact List.mem_map.2 ⟨p, hp, by simp [hnp]⟩
  · simp [closeNode, hdr] at hc
  · simp [closeNode, hdr] at hc

/-- Close environment in which every worker is still running when
__close reaches it and every awaited worker ends with the expected
CancelledError. -/
def closeEnvBasic : CloseEnv :=
  { isDone := fun _ => false, fate := fun _ => AwaitFate.cancels }

/-- A node with the NATS client set, one watcher (id 5) with its watch
task (id 4), and one plain supervised task (id 3), all registered through
the node's own registration paths. -/
def nodeStWit : NodeSt :=
  watchKvCreate (asyncTaskCreate
    { ncConnected := true, kvWatchers := [], tasks := [], loopTasks := [] } 3) 5 4

/-- Witness for C1 (amended) on nodeStWit under closeEnvBasic. -/
theorem close_drains_registered_components_wit :
    (∀ tid ∈ nodeStWit.tasks, CloseEv.awaited tid ∈
      [CloseEv.userCloseHook, CloseEv.busClosed, CloseEv.watcherStopped 5,
       CloseEv.cancelRequested 3, CloseEv.awaited 3,
       CloseEv.cancelRequested 4, CloseEv.awaited 4]) ∧
    (∀ tid ∈ nodeStWit.tasks, ∀ b : Bool,
        (tid, b) ∈ nodeStWit.loopTasks →
        (tid, true) ∈ (NodeSt.mk false [5] [3, 4]
          [(3, true), (4, true)]).loopTasks) ∧
    (∀ wid ∈ nodeStWit.kvWatchers, CloseEv.watcherStopped wid ∈
      [CloseEv.userCloseHook, CloseEv.busClosed, CloseEv.watcherStopped 5,
       CloseEv.cancelRequested 3, CloseEv.awaited 3,
       CloseEv.cancelRequested 4, CloseEv.awaited 4]) ∧
    ([CloseEv.userCloseHook, CloseEv.busClosed, CloseEv.watcherStopped 5,
      CloseEv.cancelRequested 3, CloseEv.awaited 3,
      CloseEv.cancelRequested 4, CloseEv.awaited 4]).count
        CloseEv.userCloseHook = 1 ∧
    (∃ rest, [CloseEv.userCloseHook, CloseEv.busClosed,
        CloseEv.watcherStopped 5, CloseEv.cancelRequested 3,
        CloseEv.awaited 3, CloseEv.cancelRequested 4, CloseEv.awaited 4]
        = CloseEv.userCloseHook :: rest ∧
      (nodeStWit.ncConnected = true → CloseEv.busClosed ∈ rest)) ∧
    (∀ p ∈ nodeStWit.loopTasks, p.1 ∉ nodeStWit.tasks →
      p ∈ (NodeSt.mk false [5] [3, 4] [(3, true), (4, true)]).loopTasks) :=
  close_drains_registered_components closeEnvBasic nodeStWit
    [CloseEv.userCloseHook, CloseEv.busClosed, CloseEv.watcherStopped 5,
     CloseEv.cancelRequested 3, CloseEv.awaited 3,
     CloseEv.cancelRequested 4, CloseEv.awaited 4]
    (NodeSt.mk false [5] [3, 4] [(3, true), (4, true)]) (by decide)

/-- Claim C1 is false on the code at this input: a node whose only
background component is a Scheduler created by set_interval (runner task
id 0, running). __close runs to completion - the Shutdown Coordinator
reaches Stopped, with the close hook run once before the bus client is
released - yet the scheduler's runner task was never cancelled or
awaited (set_interval does not register it in self.tasks), and it is
still running in the event loop. -/
theorem set_interval_task_survives_shutdown :
    closeNode closeEnvBasic
      (setIntervalCreate
        { ncConnected := true, kvWatchers := [], tasks := [], loopTasks := [] }
        0).1
      = CloseOut.completed [CloseEv.userCloseHook, CloseEv.busClosed]
          (NodeSt.mk false [] [] [(0, false)]) ∧
    (0, false) ∈ (NodeSt.mk false [] [] [(0, false)]).loopTasks := by
  exact ⟨by decide, by decide⟩

/-- State of the external JetStream store: which key-value buckets and
which object stores exist. -/
structure StoreSt where
  kvBuckets : List String
  objStores : List String
deriving DecidableEq, Repr

/-- Errors of the start sequence. -/
inductive StartErr where
  | connectFailed
  | bucketNotFound (name : String)
deriving DecidableEq, Repr

/-- External Store Client interface (spec section 6,
bucket(name) -> KV | fails(NotFound)): JetStreamContext.key_value only
binds to an existing key-value bucket and fails with a not-found error
when the bucket does not exist; it never creates the bucket. -/
def js_key_value (store : StoreSt) (name : String) : Except StartErr Unit :=
  if name ∈ store.kvBuckets then Except.ok ()
  else Except.error (StartErr.bucketNotFound name)

/-- External Store Client interface:
JetStreamContext.create_object_store creates the named object store when
it is missing and binds to it when it already exists. -/
def js_create_object_store (store : StoreSt) (name : String) : StoreSt :=
  if name ∈ store.objStores then store
  else { store with objStores := store.objStores ++ [name] }

/-- Environment of the start sequence: whether the initial NATS
connection succeeds, and the state of the JetStream store. -/
structure StartEnv where
  connectOk : Bool
  store : StoreSt

/-- Observable actions of the whole node process. -/
inductive ProcEv where
  | busConnected
  | kvBound
  | objBound
  | logNodeInitialized
  | initHook
  | gotStopSignal
  | logShuttingDown
  | closeEv (e : CloseEv)
  | logClosedOk
deriving DecidableEq, Repr

/-- RabbitNode.__run: connect to NATS with the node's name, bind the
key-value bucket named rabbit via key_value (resolve only - fatal when
absent), create the object store named rabbit, log, then run the user
init hook (the base-class default, which registers nothing). Any failure
propagates; the node state keeps whatever was already assigned. -/
def nodeRun (env : StartEnv) :
    NodeSt × StoreSt × List ProcEv × Except StartErr Unit :=
  let st0 : NodeSt :=
    { ncConnected := false, kvWatchers := [], tasks := [], loopTasks := [] }
  if env.connectOk = false then
    (st0, env.store, [], Except.error StartErr.connectFailed)
  else
    let st1 := { st0 with ncConnected := true }
    match js_key_value env.store "rabbit" with
    | Except.error e => (st1, env.store, [ProcEv.busConnected], Except.error e)
    | Except.ok _ =>
      let store2 := js_create_object_store env.store "rabbit"
      (st1, store2,
        [ProcEv.busConnected, ProcEv.kvBound, ProcEv.objBound,
         ProcEv.logNodeInitialized, ProcEv.initHook],
        Except.ok ())

/-- Result of run_node: clean exit with status 0; the startup error
re-raised out of asyncio.run after the finally block ran; an error raised
by __close inside the finally block (replacing any startup error); or a
shutdown that never completes because an awaited worker hangs. -/
inductive RunOut where
  | exited (evs : List ProcEv)
  | raised (evs : List ProcEv) (e : StartErr)
  | closeErrored (evs : List ProcEv)
  | hung (evs : List ProcEv)
deriving DecidableEq, Repr

/-- RabbitNode.run_node: register the signal handlers, then
try (await __run(); await stop.wait()) finally (log; await __close();
log). When __run raises, the finally block still runs the full shutdown
path on the partially-initialised node, and the original error then
propagates out of asyncio.run unmodified; an exception inside the
finally block replaces it. -/
def runNode (env : StartEnv) (cenv : CloseEnv) : RunOut :=
  match nodeRun env with
  | (st, _, evs, res) =>
    let evs2 := evs
      ++ (match res with
          | Except.ok _ => [ProcEv.gotStopSignal]
          | Except.error _ => [])
      ++ [ProcEv.logShuttingDown]
    match closeNode cenv st with
    | CloseOut.completed cevs _ =>
      let evs3 := evs2 ++ cevs.map ProcEv.closeEv ++ [ProcEv.logClosedOk]
      match res with
      | Except.ok _ => RunOut.exited evs3
      | Except.error e => RunOut.raised evs3 e
    | CloseOut.err cevs =>
      RunOut.closeErrored (evs2 ++ cevs.map ProcEv.closeEv)
    | CloseOut.stuck cevs =>
      RunOut.hung (evs2 ++ cevs.map ProcEv.closeEv)

/-- Claim C9 is false on the code at this input: the bus is reachable
and the store has no key-value bucket named rabbit. The start sequence
fails with the bucket-not-found error instead of auto-creating the
bucket, so the node never reaches Ready and the init hook never runs. -/
theorem missing_bucket_start_error :
    (nodeRun (StartEnv.mk true (StoreSt.mk [] []))).2.2.2
      = Except.error (StartErr.bucketNotFound "rabbit") ∧
    ProcEv.initHook ∉ (nodeRun (StartEnv.mk true (StoreSt.mk [] []))).2.2.1 := by
  exact ⟨rfl, by decide⟩

/-- Claim C9 (amended): with the bus reachable, start() binds the
key-value bucket named rabbit only if it already exists - when it is
missing, startup fails with the not-found error and the node does not
transition to Ready; the blob object store, in contrast, is created when
missing (and left as is when present). -/
theorem start_resolves_bucket_creates_blob (store : StoreSt) :
    ("rabbit" ∈ store.kvBuckets →
      (nodeRun (StartEnv.mk true store)).2.2.2 = Except.ok () ∧
      "rabbit" ∈ (nodeRun (StartEnv.mk true store)).2.1.objStores ∧
      ProcEv.initHook ∈ (nodeRun (StartEnv.mk true store)).2.2.1) ∧
    ("rabbit" ∉ store.kvBuckets →
      (nodeRun (StartEnv.mk true store)).2.2.2
        = Except.error (StartErr.bucketNotFound "rabbit") ∧
      ProcEv.initHook ∉ (nodeRun (StartEnv.mk true store)).2.2.1) := by
  constructor
  · intro hmem
    have hkv : js_key_value store "rabbit" = Except.ok () := by
      simp [js_key_value, hmem]
    refine ⟨?_, ?_, ?_⟩
    · simp [nodeRun, hkv]
    · simp only [nodeRun]
      rw [hkv]
      simp [js_create_object_store]
      split_ifs with h
      · exact h
      · simp
    · simp [nodeRun, hkv]
  · intro hmem
    have hkv : js_key_value store "rabbit"
        = Except.error (StartErr.bucketNotFound "rabbit") := by
      simp [js_key_value, hmem]
    constructor
    · simp [nodeRun, hkv]
    · simp [nodeRun, hkv]

/-- Witness for C9 (amended), applied to a store that has the bucket and
to a store that lacks it. -/
theorem start_resolves_bucket_creates_blob_wit :
    ((nodeRun (StartEnv.mk true (StoreSt.mk ["rabbit"] []))).2.2.2
        = Except.ok () ∧
      "rabbit" ∈ (nodeRun (StartEnv.mk true
        (StoreSt.mk ["rabbit"] []))).2.1.objStores ∧
      ProcEv.initHook ∈ (nodeRun (StartEnv.mk true
        (StoreSt.mk ["rabbit"] []))).2.2.1) ∧
    ((nodeRun (StartEnv.mk true (StoreSt.mk [] ["rabbit"]))).2.2.2
        = Except.error (StartErr.bucketNotFound "rabbit") ∧
      ProcEv.initHook ∉ (nodeRun (StartEnv.mk true
        (StoreSt.mk [] ["rabbit"]))).2.2.1) :=
  ⟨(start_resolves_bucket_creates_blob (StoreSt.mk ["rabbit"] [])).1
      (by decide),
   (start_resolves_bucket_creates_blob (StoreSt.mk [] ["rabbit"])).2
      (by decide)⟩

/-- Claim C10: whenever the start sequence fails with error e - before
Ready, so before the init hook ever ran - run_node still executes the
full shutdown path inside the finally block: the user close hook runs
exactly once, the shutdown completes (the closed-successfully log is
reached), and the original startup error e then propagates out of the
process entry point unmodified. -/
theorem run_node_closes_after_start_failure (env : StartEnv)
    (cenv : CloseEnv) (e : StartErr)
    (hfail : (nodeRun env).2.2.2 = Except.error e) :
    ∃ evs, runNode env cenv = RunOut.raised evs e ∧
      evs.count (ProcEv.closeEv CloseEv.userCloseHook) = 1 ∧
      ProcEv.initHook ∉ evs ∧
      ProcEv.logClosedOk ∈ evs := by
  cases hco : env.connectOk with
  | false =>
    have he : e = StartErr.connectFailed := by
      simp [nodeRun, hco] at hfail
      exact hfail.symm
    subst he
    refine ⟨[ProcEv.logShuttingDown, ProcEv.closeEv CloseEv.userCloseHook,
      ProcEv.logClosedOk], ?_, by decide, by decide, by decide⟩
    simp [runNode, nodeRun, hco, closeNode, drainTasks, markDone]
  | true =>
    cases hkv : js_key_value env.store "rabbit" with
    | error err2 =>
      have he : e = err2 := by
        simp [nodeRun, hco, hkv] at hfail
        exact hfail.symm
      subst he
      refine ⟨[ProcEv.busConnected, ProcEv.logShuttingDown,
        ProcEv.closeEv CloseEv.userCloseHook,
        ProcEv.closeEv CloseEv.busClosed, ProcEv.logClosedOk],
        ?_, by decide, by decide, by decide⟩
      simp [runNode, nodeRun, hco, hkv, closeNode, drainTasks, markDone]
    | ok u =>
      exfalso
      simp [nodeRun, hco, hkv] at hfail

/-- Witness for C10: the initial connection fails; every close
environment serves, since nothing was registered. -/
theorem run_node_closes_after_start_failure_wit :
    ∃ evs, runNode (StartEnv.mk false (StoreSt.mk [] [])) closeEnvBasic
        = RunOut.raised evs StartErr.connectFailed ∧
      evs.count (ProcEv.closeEv CloseEv.userCloseHook) = 1 ∧
      ProcEv.initHook ∉ evs ∧
      ProcEv.logClosedOk ∈ evs :=
  run_node_closes_after_start_failure (StartEnv.mk false (StoreSt.mk [] []))
    closeEnvBasic StartErr.connectFailed rfl

/-- Trace of the worker coroutine created by
set_timeout(callback, delay), started at time t0, when the callback
itself takes cbDur: the source awaits the callback first and sleeps for
delay afterwards. -/
inductive TimeoutEv where
  | callbackInvoked (t : ℚ)
  | sleptUntil (t : ℚ)
deriving DecidableEq, Repr

/-- The body of worker() inside RabbitNode.set_timeout:
await callback(), then await asyncio.sleep(delay). -/
def setTimeoutWorker (t0 delay cbDur : ℚ) : List TimeoutEv :=
  [TimeoutEv.callbackInvoked t0, TimeoutEv.sleptUntil (t0 + cbDur + delay)]

/-- Claim C7 names a code bug: with delay 5 and an instantaneous
callback registered at time 0, the worker invokes the callback
immediately at time 0 - before the delay has elapsed, since 0 < 5 - and
only then sleeps the 5 seconds; cancelling the returned task once it has
started can no longer prevent the invocation. The two awaits in
set_timeout are in the wrong order for a one-shot timer. -/
theorem set_timeout_runs_callback_before_delay :
    setTimeoutWorker 0 5 0
      = [TimeoutEv.callbackInvoked 0, TimeoutEv.sleptUntil 5] ∧
    (setTimeoutWorker 0 5 0).head?
      = some (TimeoutEv.callbackInvoked 0) ∧
    (0 : ℚ) < 0 + 5 := by
  refine ⟨?_, rfl, by norm_num⟩
  norm_num [setTimeoutWorker]

end Rabbit
